import Mathlib

/-!
Verification of the marp2video narration/segment pipeline.

The definitions below are shallow embeddings of the Python sources:
 - `src/marp2video/assembler.py` (segment timing, concatenation),
 - `src/marp2video/tts.py` (pronunciations, sentence chunking,
   synthesis orchestration with OOM fallback and interactive review),
 - `src/deck2video/utils.py` (`generate_silent_wav`),
 - `src/marp2video/__main__.py` (pipeline order).
Durations are modelled as rationals; strings as `List Char`.
-/

namespace Marp2Video

/-! ## Segment timing (assembler.py) -/

/-- `pad_s = audio_padding_ms / 1000` (assembler.py, `_make_segment` /
`_make_video_segment`). -/
def padSeconds (audio_padding_ms : ℕ) : ℚ := (audio_padding_ms : ℚ) / 1000

/-- The values computed by `_make_segment` for a still-image slide:
the `-t` target duration and the optional `adelay` audio filter. -/
structure StillSegment where
  duration : ℚ
  adelayMs : Option ℕ
  deriving DecidableEq, Repr

/-- Embedding of `_make_segment` (assembler.py lines 22-57):
`duration = get_audio_duration(audio) + 2 * pad_s`; `adelay` only when
`audio_padding_ms > 0`. -/
def makeSegment (audioDur : ℚ) (audio_padding_ms : ℕ) : StillSegment :=
  { duration := audioDur + 2 * padSeconds audio_padding_ms
    adelayMs := if audio_padding_ms > 0 then some audio_padding_ms else none }

/-- The values computed by `_make_video_segment` for a screencast slide:
the `-t` target duration, the optional `tpad` freeze extension and the
optional `adelay` filter. -/
structure VideoSegment where
  targetDur : ℚ
  freeze : Option ℚ
  adelayMs : Option ℕ
  deriving DecidableEq, Repr

/-- `padded_audio_dur = audio_dur + 2 * pad_s` (assembler.py line 88). -/
def paddedAudio (audioDur : ℚ) (audio_padding_ms : ℕ) : ℚ :=
  audioDur + 2 * padSeconds audio_padding_ms

/-- Embedding of `_make_video_segment` (assembler.py lines 65-120):
`target_dur = max(audio_dur, video_dur) + 2 * pad_s`; a `tpad` freeze of
`padded_audio_dur - video_dur` exactly when `padded_audio_dur > video_dur`. -/
def makeVideoSegment (audioDur videoDur : ℚ) (audio_padding_ms : ℕ) : VideoSegment :=
  { targetDur := max audioDur videoDur + 2 * padSeconds audio_padding_ms
    freeze :=
      if paddedAudio audioDur audio_padding_ms > videoDur then
        some (paddedAudio audioDur audio_padding_ms - videoDur)
      else none
    adelayMs := if audio_padding_ms > 0 then some audio_padding_ms else none }

end Marp2Video

namespace Marp2Video

/-- C6: for every still-image slide the encoded segment's target duration
equals the slide's audio duration plus exactly `2 * (padding_ms / 1000)`
seconds. -/
theorem still_segment_duration_law (audioDur : ℚ) (ms : ℕ) :
    (makeSegment audioDur ms).duration = audioDur + 2 * ((ms : ℚ) / 1000) := by
  simp [makeSegment, padSeconds]

/-- C1 counterexample: at clip duration `C = 10`, audio `A = 5`,
padding `500` ms (Scenario C), the code's target duration is `11`,
not `max (C, A + 2p) = 10` as the claim states; the freeze is absent. -/
theorem video_segment_scenarioC_refutes_claim :
    (makeVideoSegment 5 10 500).targetDur = 11 ∧
      paddedAudio 5 500 = 6 ∧
      max (10 : ℚ) (paddedAudio 5 500) = 10 ∧
      (makeVideoSegment 5 10 500).targetDur ≠ max (10 : ℚ) (paddedAudio 5 500) ∧
      (makeVideoSegment 5 10 500).freeze = none := by
  refine ⟨?_, ?_, ?_, ?_, ?_⟩ <;>
    norm_num [makeVideoSegment, paddedAudio, padSeconds]

/-- C1 (amended): for a screencast with clip duration `C`, audio `A`
and per-side padding `p = ms/1000`, the code's segment duration is
`max(A, C) + 2p = max(D, C + 2p)` where `D = A + 2p`; the freeze
extension is `D - C` when `D > C` and absent otherwise; in particular
when `D ≤ C` the duration is `C + 2p` (so Scenario C yields `11`, not
`10`, with no freeze). -/
theorem video_segment_reconcile_law (A C : ℚ) (ms : ℕ) :
    (makeVideoSegment A C ms).targetDur
        = max (paddedAudio A ms) (C + 2 * padSeconds ms) ∧
      (makeVideoSegment A C ms).freeze
        = (if paddedAudio A ms > C then some (paddedAudio A ms - C) else none) ∧
      (paddedAudio A ms ≤ C →
        (makeVideoSegment A C ms).targetDur = C + 2 * padSeconds ms ∧
          (makeVideoSegment A C ms).freeze = none) := by
  refine ⟨?_, ?_, ?_⟩
  · simp only [makeVideoSegment, paddedAudio]
    rw [max_add_add_right]
  · rfl
  · intro h
    have hAC : A ≤ C := by
      have hp : 0 ≤ 2 * padSeconds ms := by
        have : (0 : ℚ) ≤ (ms : ℚ) / 1000 := by positivity
        simpa [padSeconds] using by linarith
      have := h
      simp only [paddedAudio] at this
      linarith
    constructor
    · simp only [makeVideoSegment, max_eq_right hAC]
    · simp only [makeVideoSegment]
      rw [if_neg]
      exact not_lt.mpr h

/-- C1 witness: the amended law applied at Scenario C
(`A = 5`, `C = 10`, `ms = 500`). -/
theorem video_segment_reconcile_law_witness :
    (makeVideoSegment 5 10 500).targetDur = 10 + 2 * padSeconds 500 ∧
      (makeVideoSegment 5 10 500).freeze = none :=
  (video_segment_reconcile_law 5 10 500).2.2
    (by norm_num [paddedAudio, padSeconds])

end Marp2Video

namespace Marp2Video

/-! ## Character and string helpers shared by tts.py and utils.py -/

/-- ASCII lowercasing, modelling Python's case-insensitive matching
(`re.IGNORECASE`) and `str.lower()` on the ASCII strings involved. -/
def lowerChar (c : Char) : Char :=
  if 'A' ≤ c ∧ c ≤ 'Z' then Char.ofNat (c.toNat + 32) else c

/-- Case-insensitive "pattern matches at the start of the text" test. -/
def ciStartsWith : List Char → List Char → Bool
  | [], _ => true
  | _ :: _, [] => false
  | k :: ks, t :: ts => (lowerChar k == lowerChar t) && ciStartsWith ks ts

/-- `re.sub` of an empty pattern: the replacement is inserted before every
character and at the end (Python regex semantics). -/
def subEmpty (repl : List Char) : List Char → List Char
  | [] => repl
  | c :: cs => repl ++ c :: subEmpty repl cs

/-- Fuel-bounded scanner for `subAllCI`: each step consumes at least one
character of the text, so `text.length` fuel always suffices. -/
def subAllCIGo (key repl : List Char) : ℕ → List Char → List Char
  | _, [] => []
  | 0, ts => ts
  | fuel + 1, t :: ts =>
    if ciStartsWith key (t :: ts) then
      repl ++ subAllCIGo key repl fuel (List.drop (key.length - 1) ts)
    else
      t :: subAllCIGo key repl fuel ts

/-- Leftmost, non-overlapping, case-insensitive replacement of every
occurrence of a nonempty literal `key` by `repl`, as performed by
`re.compile(re.escape(word), re.IGNORECASE).sub(repl, text)`. -/
def subAllCI (key repl text : List Char) : List Char :=
  subAllCIGo key repl text.length text

/-- One pass of `pattern.sub`, covering Python's empty-pattern case too. -/
def pySubCI (key repl text : List Char) : List Char :=
  if key.isEmpty then subEmpty repl text else subAllCI key repl text

/-- Stable insertion into a list sorted by descending key length, placing
the new pair before the first pair whose key is not strictly longer.
Together with `sortByLenDesc` this models Python's stable
`sorted(mapping, key=len, reverse=True)`. -/
def insertByLenDesc (p : List Char × List Char) :
    List (List Char × List Char) → List (List Char × List Char)
  | [] => [p]
  | q :: qs =>
    if q.1.length > p.1.length then q :: insertByLenDesc p qs else p :: q :: qs

/-- Stable sort of the pronunciation pairs by descending key length. -/
def sortByLenDesc : List (List Char × List Char) → List (List Char × List Char)
  | [] => []
  | p :: ps => insertByLenDesc p (sortByLenDesc ps)

/-- Embedding of `apply_pronunciations` (tts.py lines 33-46): if the
mapping is empty return the text unchanged; otherwise apply one
case-insensitive substitution pass per key, longest keys first. -/
def apply_pronunciations (text : List Char)
    (mapping : List (List Char × List Char)) : List Char :=
  if mapping.isEmpty then text
  else (sortByLenDesc mapping).foldl (fun acc p => pySubCI p.1 p.2 acc) text

end Marp2Video

namespace Marp2Video

/-- C2: the code contradicts its own docstring ("restricted to whole
words so that, e.g., replacing ``SQL`` won't mangle ``MySQL``"): with
the table `{"SQL": "sequel"}` the text `"MySQL"` becomes `"Mysequel"`,
i.e. the key rewrites a proper substring of a larger word. -/
theorem apply_pronunciations_rewrites_inside_words :
    apply_pronunciations "MySQL".toList [("SQL".toList, "sequel".toList)]
        = "Mysequel".toList ∧
      "Mysequel".toList ≠ "MySQL".toList := by
  constructor
  · decide
  · decide

end Marp2Video

namespace Marp2Video

/-! ## Silent WAV generation (deck2video/utils.py) -/

/-- Little-endian encoding of a 16-bit value, as `struct.pack("<H", n)`. -/
def u16le (n : ℕ) : List ℕ := [n % 256, n / 256 % 256]

/-- Little-endian encoding of a 32-bit value, as `struct.pack("<I", n)`. -/
def u32le (n : ℕ) : List ℕ :=
  [n % 256, n / 256 % 256, n / 65536 % 256, n / 16777216 % 256]

/-- Python `int()` on a rational: truncation toward zero. -/
def truncToZero (q : ℚ) : ℤ := if 0 ≤ q then ⌊q⌋ else -⌊-q⌋

/-- `num_samples = int(sample_rate * duration)` (utils.py line 39). -/
def numSamples (duration : ℚ) (sample_rate : ℕ) : ℤ :=
  truncToZero ((sample_rate : ℚ) * duration)

/-- `data_size = num_samples * num_channels * (bits_per_sample // 8)`
(utils.py line 40, with `num_channels = 1`, `bits_per_sample = 16`). -/
def wavDataSize (duration : ℚ) (sample_rate : ℕ) : ℕ :=
  (numSamples duration sample_rate).toNat * 1 * (16 / 8)

/-- Embedding of `generate_silent_wav` (utils.py lines 35-59) as the byte
sequence it writes: RIFF header, fmt chunk (PCM, 1 channel, 16-bit at
`sample_rate`), data chunk of all-zero bytes.  `none` models the
`struct.error` Python raises when `num_samples` is negative. -/
def generate_silent_wav (duration : ℚ) (sample_rate : ℕ) : Option (List ℕ) :=
  if numSamples duration sample_rate < 0 then none
  else
    some ([0x52, 0x49, 0x46, 0x46] ++
      u32le (36 + wavDataSize duration sample_rate) ++
      [0x57, 0x41, 0x56, 0x45] ++
      [0x66, 0x6d, 0x74, 0x20] ++ u32le 16 ++ u16le 1 ++ u16le 1 ++
      u32le sample_rate ++ u32le (sample_rate * 1 * 16 / 8) ++
      u16le (1 * 16 / 8) ++ u16le 16 ++
      [0x64, 0x61, 0x74, 0x61] ++ u32le (wavDataSize duration sample_rate) ++
      List.replicate (wavDataSize duration sample_rate) 0)

end Marp2Video

namespace Marp2Video

/-- C7: `generate_silent_wav` is deterministic (equal arguments give
byte-identical output); for a nonnegative duration it succeeds and the
output is single-channel (byte offset 22) 16-bit (offset 34) linear PCM
(format tag 1 at offset 20) at the given sample rate (offset 24), every
payload byte is zero, and the payload length is twice the duration
rounded down to a whole number of samples. -/
theorem generate_silent_wav_spec (d : ℚ) (r : ℕ) (hd : 0 ≤ d) :
    (∀ d₂ r₂, d = d₂ → r = r₂ →
        generate_silent_wav d r = generate_silent_wav d₂ r₂) ∧
      ∃ bs, generate_silent_wav d r = some bs ∧
        bs.length = 44 + 2 * (numSamples d r).toNat ∧
        List.drop 44 bs = List.replicate (2 * (numSamples d r).toNat) 0 ∧
        (List.drop 20 bs).take 2 = u16le 1 ∧
        (List.drop 22 bs).take 2 = u16le 1 ∧
        (List.drop 24 bs).take 4 = u32le r ∧
        (List.drop 34 bs).take 2 = u16le 16 := by
  have hnn : ¬ numSamples d r < 0 := by
    simp only [numSamples, truncToZero, not_lt]
    have h0 : (0 : ℚ) ≤ (r : ℚ) * d := by positivity
    rw [if_pos h0]
    exact Int.floor_nonneg.mpr h0
  have hds : wavDataSize d r = 2 * (numSamples d r).toNat := by
    simp only [wavDataSize]
    omega
  refine ⟨fun d₂ r₂ h1 h2 => by rw [h1, h2], ?_⟩
  rw [generate_silent_wav, if_neg hnn]
  refine ⟨_, rfl, ?_, ?_, ?_, ?_, ?_, ?_⟩
  · simp only [List.length_append, List.length_replicate, u16le, u32le,
      List.length_cons, List.length_nil, hds]
    try omega
  · rw [hds]
    exact List.drop_left' (by simp [u16le, u32le])
  · rw [show ([0x52, 0x49, 0x46, 0x46] ++
        u32le (36 + wavDataSize d r) ++ [0x57, 0x41, 0x56, 0x45] ++
        [0x66, 0x6d, 0x74, 0x20] ++ u32le 16 ++ u16le 1 ++ u16le 1 ++
        u32le r ++ u32le (r * 1 * 16 / 8) ++
        u16le (1 * 16 / 8) ++ u16le 16 ++
        [0x64, 0x61, 0x74, 0x61] ++ u32le (wavDataSize d r) ++
        List.replicate (wavDataSize d r) 0 : List ℕ)
        = ([0x52, 0x49, 0x46, 0x46] ++
            u32le (36 + wavDataSize d r) ++ [0x57, 0x41, 0x56, 0x45] ++
            [0x66, 0x6d, 0x74, 0x20] ++ u32le 16) ++
          (u16le 1 ++ (u16le 1 ++ u32le r ++ u32le (r * 1 * 16 / 8) ++
            u16le (1 * 16 / 8) ++ u16le 16 ++
            [0x64, 0x61, 0x74, 0x61] ++ u32le (wavDataSize d r) ++
            List.replicate (wavDataSize d r) 0))
        from by simp [List.append_assoc]]
    rw [List.drop_left' (by simp [u16le, u32le]),
      List.take_left' (by simp [u16le])]
  · rw [show ([0x52, 0x49, 0x46, 0x46] ++
        u32le (36 + wavDataSize d r) ++ [0x57, 0x41, 0x56, 0x45] ++
        [0x66, 0x6d, 0x74, 0x20] ++ u32le 16 ++ u16le 1 ++ u16le 1 ++
        u32le r ++ u32le (r * 1 * 16 / 8) ++
        u16le (1 * 16 / 8) ++ u16le 16 ++
        [0x64, 0x61, 0x74, 0x61] ++ u32le (wavDataSize d r) ++
        List.replicate (wavDataSize d r) 0 : List ℕ)
        = ([0x52, 0x49, 0x46, 0x46] ++
            u32le (36 + wavDataSize d r) ++ [0x57, 0x41, 0x56, 0x45] ++
            [0x66, 0x6d, 0x74, 0x20] ++ u32le 16 ++ u16le 1) ++
          (u16le 1 ++ (u32le r ++ u32le (r * 1 * 16 / 8) ++
            u16le (1 * 16 / 8) ++ u16le 16 ++
            [0x64, 0x61, 0x74, 0x61] ++ u32le (wavDataSize d r) ++
            List.replicate (wavDataSize d r) 0))
        from by simp [List.append_assoc]]
    rw [List.drop_left' (by simp [u16le, u32le]),
      List.take_left' (by simp [u16le])]
  · rw [show ([0x52, 0x49, 0x46, 0x46] ++
        u32le (36 + wavDataSize d r) ++ [0x57, 0x41, 0x56, 0x45] ++
        [0x66, 0x6d, 0x74, 0x20] ++ u32le 16 ++ u16le 1 ++ u16le 1 ++
        u32le r ++ u32le (r * 1 * 16 / 8) ++
        u16le (1 * 16 / 8) ++ u16le 16 ++
        [0x64, 0x61, 0x74, 0x61] ++ u32le (wavDataSize d r) ++
        List.replicate (wavDataSize d r) 0 : List ℕ)
        = ([0x52, 0x49, 0x46, 0x46] ++
            u32le (36 + wavDataSize d r) ++ [0x57, 0x41, 0x56, 0x45] ++
            [0x66, 0x6d, 0x74, 0x20] ++ u32le 16 ++ u16le 1 ++ u16le 1) ++
          (u32le r ++ (u32le (r * 1 * 16 / 8) ++
            u16le (1 * 16 / 8) ++ u16le 16 ++
            [0x64, 0x61, 0x74, 0x61] ++ u32le (wavDataSize d r) ++
            List.replicate (wavDataSize d r) 0))
        from by simp [List.append_assoc]]
    rw [List.drop_left' (by simp [u16le, u32le]),
      List.take_left' (by simp [u32le])]
  · rw [show ([0x52, 0x49, 0x46, 0x46] ++
        u32le (36 + wavDataSize d r) ++ [0x57, 0x41, 0x56, 0x45] ++
        [0x66, 0x6d, 0x74, 0x20] ++ u32le 16 ++ u16le 1 ++ u16le 1 ++
        u32le r ++ u32le (r * 1 * 16 / 8) ++
        u16le (1 * 16 / 8) ++ u16le 16 ++
        [0x64, 0x61, 0x74, 0x61] ++ u32le (wavDataSize d r) ++
        List.replicate (wavDataSize d r) 0 : List ℕ)
        = ([0x52, 0x49, 0x46, 0x46] ++
            u32le (36 + wavDataSize d r) ++ [0x57, 0x41, 0x56, 0x45] ++
            [0x66, 0x6d, 0x74, 0x20] ++ u32le 16 ++ u16le 1 ++ u16le 1 ++
            u32le r ++ u32le (r * 1 * 16 / 8) ++ u16le (1 * 16 / 8)) ++
          (u16le 16 ++ ([0x64, 0x61, 0x74, 0x61] ++ u32le (wavDataSize d r) ++
            List.replicate (wavDataSize d r) 0))
        from by simp [List.append_assoc]]
    rw [List.drop_left' (by simp [u16le, u32le]),
      List.take_left' (by simp [u16le])]

/-- C7 witness: the silent-WAV specification applied at duration 3 s,
sample rate 2 Hz. -/
theorem generate_silent_wav_spec_witness :
    ∃ bs, generate_silent_wav 3 2 = some bs ∧
      bs.length = 44 + 2 * (numSamples 3 2).toNat ∧
      List.drop 44 bs = List.replicate (2 * (numSamples 3 2).toNat) 0 ∧
      (List.drop 20 bs).take 2 = u16le 1 ∧
      (List.drop 22 bs).take 2 = u16le 1 ∧
      (List.drop 24 bs).take 4 = u32le 2 ∧
      (List.drop 34 bs).take 2 = u16le 16 :=
  (generate_silent_wav_spec 3 2 (by norm_num)).2

end Marp2Video

namespace Marp2Video

/-! ## Sentence splitting and chunking (tts.py) -/

/-- Python's ASCII whitespace characters (the `\s` class and the
characters stripped by `str.strip()` on ASCII text). -/
def isPySpace (c : Char) : Bool :=
  c == ' ' || c == '\t' || c == '\n' || c == '\x0d' || c == '\x0b' || c == '\x0c'

/-- Characters matched by `[.!?]` in `_split_sentences`. -/
def isSentEnd (c : Char) : Bool := c == '.' || c == '!' || c == '?'

/-- `str.strip()`: drop leading and trailing whitespace. -/
def pyStrip (s : List Char) : List Char :=
  ((s.dropWhile isPySpace).reverse.dropWhile isPySpace).reverse

/-- Does the accumulator (the current part, in reverse) end with
sentence punctuation?  This is the `(?<=[.!?])` lookbehind. -/
def headSentEnd : List Char → Bool
  | [] => false
  | a :: _ => isSentEnd a

/-- Scanner for `re.split(r'(?<=[.!?])\s+', text)`: a maximal whitespace
run splits the text exactly when the character before the run is one of
`.!?` (the head of the accumulator, which holds the current part in
reverse). -/
def splitSentAux : List Char → List Char → List (List Char)
  | acc, [] => [acc.reverse]
  | acc, c :: rest =>
    if isPySpace c && headSentEnd acc then
      acc.reverse :: splitSentAux [] (rest.dropWhile isPySpace)
    else
      splitSentAux (c :: acc) rest
termination_by _ l => l.length
decreasing_by
  · have := (List.dropWhile_sublist (l := rest) (p := isPySpace)).length_le
    simp only [List.length_cons]
    omega
  · simp only [List.length_cons]
    omega

/-- Embedding of `_split_sentences` (tts.py lines 64-67): split on
whitespace runs preceded by sentence punctuation, drop empty parts. -/
def split_sentences (text : List Char) : List (List Char) :=
  (splitSentAux [] (pyStrip text)).filter (fun p => ¬ p.isEmpty)

/-- The grouping `sentences[i:i+3] for i in range(0, len(sentences), 3)`
(tts.py lines 147-150): consecutive groups of at most three sentences. -/
def sentenceGroupLists : List (List Char) → List (List (List Char))
  | [] => []
  | [a] => [[a]]
  | [a, b] => [[a, b]]
  | a :: b :: c :: rest => [a, b, c] :: sentenceGroupLists rest

/-- Python's `" ".join`: concatenate with a single space separator. -/
def joinSp : List (List Char) → List Char
  | [] => []
  | [x] => x
  | x :: y :: rest => x ++ ' ' :: joinSp (y :: rest)

/-- The chunk texts handed to the model, one per sentence group
(tts.py lines 147-150). -/
def sentence_groups (text : List Char) : List (List Char) :=
  (sentenceGroupLists (split_sentences text)).map joinSp

theorem joinSp_append : ∀ (xs ys : List (List Char)), xs ≠ [] → ys ≠ [] →
    joinSp (xs ++ ys) = joinSp xs ++ ' ' :: joinSp ys
  | [], _, hx, _ => absurd rfl hx
  | [_], [], _, hy => absurd rfl hy
  | [a], b :: bs, _, _ => by simp [joinSp]
  | a :: a2 :: as2, ys, _, hy => by
    have ih := joinSp_append (a2 :: as2) ys (by simp) hy
    simp only [List.cons_append] at ih ⊢
    cases ys with
    | nil => exact absurd rfl hy
    | cons b bs =>
      calc joinSp (a :: a2 :: (as2 ++ b :: bs))
          = a ++ ' ' :: joinSp (a2 :: (as2 ++ b :: bs)) := by rw [joinSp]
        _ = a ++ ' ' :: (joinSp (a2 :: as2) ++ ' ' :: joinSp (b :: bs)) := by
            rw [ih]
        _ = (a ++ ' ' :: joinSp (a2 :: as2)) ++ ' ' :: joinSp (b :: bs) := by
            simp
        _ = joinSp (a :: a2 :: as2) ++ ' ' :: joinSp (b :: bs) := by rw [joinSp]

theorem sentenceGroupLists_join (s : List (List Char)) :
    (sentenceGroupLists s).flatten = s := by
  induction s using sentenceGroupLists.induct with
  | case1 => rfl
  | case2 a => rfl
  | case3 a b => rfl
  | case4 a b c rest ih => simp [sentenceGroupLists, ih]

theorem sentenceGroupLists_bounded (s : List (List Char)) :
    ∀ g ∈ sentenceGroupLists s, g ≠ [] ∧ g.length ≤ 3 := by
  induction s using sentenceGroupLists.induct with
  | case1 => intro g hg; cases hg
  | case2 a => intro g hg; simp only [sentenceGroupLists, List.mem_singleton] at hg; simp [hg]
  | case3 a b => intro g hg; simp only [sentenceGroupLists, List.mem_singleton] at hg; simp [hg]
  | case4 a b c rest ih =>
    intro g hg
    simp only [sentenceGroupLists, List.mem_cons] at hg
    rcases hg with h | h
    · simp [h]
    · exact ih g h

theorem joinSp_groups (gs : List (List (List Char)))
    (h : ∀ g ∈ gs, g ≠ []) :
    joinSp (gs.map joinSp) = joinSp gs.flatten := by
  induction gs with
  | nil => rfl
  | cons g rest ih =>
    cases rest with
    | nil => simp [joinSp]
    | cons g2 rest2 =>
      have hg : g ≠ [] := h g (by simp)
      have hr : (g2 :: rest2).flatten ≠ [] := by
        have hg2 : g2 ≠ [] := h g2 (by simp)
        cases g2 with
        | nil => exact absurd rfl hg2
        | cons x xs => simp
      have hrest : ∀ g' ∈ g2 :: rest2, g' ≠ [] := fun g' hg' => h g' (by simp [hg'])
      calc joinSp ((g :: g2 :: rest2).map joinSp)
          = joinSp g ++ ' ' :: joinSp ((g2 :: rest2).map joinSp) := by
            rw [List.map_cons, List.map_cons, joinSp]
        _ = joinSp g ++ ' ' :: joinSp (g2 :: rest2).flatten := by rw [ih hrest]
        _ = joinSp (g ++ (g2 :: rest2).flatten) := (joinSp_append g _ hg hr).symm
        _ = joinSp (g :: g2 :: rest2).flatten := by
            simp only [List.flatten_cons]

end Marp2Video

namespace Marp2Video

/-- C8: chunking is deterministic; the sentence groups are consecutive
groups of at most three sentences, in order (their concatenation is the
sentence list); and joining the chunk texts with spaces equals joining
the sentences with spaces. -/
theorem chunking_preserves_text (text : List Char) :
    (∀ text₂, text = text₂ → sentence_groups text = sentence_groups text₂) ∧
      (sentenceGroupLists (split_sentences text)).flatten = split_sentences text ∧
      (∀ g ∈ sentenceGroupLists (split_sentences text), g ≠ [] ∧ g.length ≤ 3) ∧
      joinSp (sentence_groups text) = joinSp (split_sentences text) := by
  refine ⟨fun text₂ h => by rw [h], sentenceGroupLists_join _,
    sentenceGroupLists_bounded _, ?_⟩
  rw [sentence_groups,
    joinSp_groups _ (fun g hg => (sentenceGroupLists_bounded _ g hg).1),
    sentenceGroupLists_join]

end Marp2Video

namespace Marp2Video

/-! ## Synthesis orchestration (tts.py `generate_audio_for_slides`) -/

/-- Case-sensitive substring test, modelling Python's `in` on strings. -/
def containsSub (pat : List Char) : List Char → Bool
  | [] => pat.isEmpty
  | c :: rest => List.isPrefixOf pat (c :: rest) || containsSub pat rest

/-- Embedding of `_is_oom` (tts.py lines 220-223): lowercase the message
and look for the out-of-memory markers. -/
def is_oom (msg : List Char) : Bool :=
  containsSub "out of memory".toList (msg.map lowerChar) ||
    containsSub "mps backend out of memory".toList (msg.map lowerChar)

/-- A slide record as consumed by the orchestrator: 1-based index and
optional speaker notes (body and screencast path are irrelevant here). -/
structure Slide where
  index : ℕ
  notes : Option (List Char)
  deriving DecidableEq, Repr

/-- Outcome of one call of `_generate_slide_audio` (the whole chunk loop
for a slide): success, or an exception with a message. -/
inductive Attempt where
  | ok
  | err (msg : List Char)
  deriving DecidableEq, Repr

/-- The orchestrator's environment: the synthesis oracle (outcome of the
n-th `_generate_slide_audio` call of the run), the operator input stream,
and the run parameters read from the CLI. -/
structure Env where
  synth : ℕ → Attempt
  inputs : List (List Char)
  interactive : Bool
  holdDuration : ℚ
  gpuAvailable : Bool

/-- Observable actions taken by the orchestrator, in program order. -/
inductive Ev where
  | synthAttempt (slideIdx attemptId : ℕ)
  | downgrade
  | writeSilent (slideIdx : ℕ) (dur : ℚ)
  | writeAudio (slideIdx attemptId : ℕ)
  | played (slideIdx : ℕ)
  deriving DecidableEq, Repr

/-- The final content of a slide's `audio_{index:03d}.wav` on disk. -/
inductive Artifact where
  | silent (dur : ℚ)
  | synth (attemptId : ℕ)
  deriving DecidableEq, Repr

/-- How a slide's processing ended: fall through to the next slide, a
`sys.exit(0)` from the interactive quit, or an uncaught `EOFError` from
`input()` on an exhausted stream. -/
inductive ReviewEnd where
  | kept
  | quitRun
  | eofAbort
  deriving DecidableEq, Repr

/-- `input().strip().lower()` (tts.py line 288). -/
def normalizeChoice (s : List Char) : List Char := (pyStrip s).map lowerChar

/-- State returned by the interactive review loop. -/
structure ReviewOut where
  evs : List Ev
  lastSaved : ℕ
  n : ℕ
  inputs : List (List Char)
  stop : ReviewEnd
  deriving Repr

/-- Embedding of the interactive review loop (tts.py lines 287-313):
empty input or `y` keeps; `r` replays and re-prompts; `q` quits the run;
anything else regenerates — on success the new audio is saved, played
and the loop re-prompts, on failure the previous audio is kept and the
loop exits. -/
def reviewLoop (env : Env) (idx savedId : ℕ) :
    List (List Char) → ℕ → ReviewOut
  | [], n => ⟨[], savedId, n, [], .eofAbort⟩
  | inp :: rest, n =>
    let c := normalizeChoice inp
    if c = [] ∨ c = ['y'] then ⟨[], savedId, n, rest, .kept⟩
    else if c = ['r'] then
      let r := reviewLoop env idx savedId rest n
      ⟨.played idx :: r.evs, r.lastSaved, r.n, r.inputs, r.stop⟩
    else if c = ['q'] then ⟨[], savedId, n, rest, .quitRun⟩
    else
      match env.synth n with
      | .err _ => ⟨[.synthAttempt idx n], savedId, n + 1, rest, .kept⟩
      | .ok =>
        let r := reviewLoop env idx n rest (n + 1)
        ⟨.synthAttempt idx n :: .writeAudio idx n :: .played idx :: r.evs,
          r.lastSaved, r.n, r.inputs, r.stop⟩

/-- State returned by the processing of one slide. -/
structure SlideOut where
  evs : List Ev
  artifact : Artifact
  onGpu : Bool
  n : ℕ
  inputs : List (List Char)
  stop : ReviewEnd
  deriving Repr

/-- After a successful synthesis of attempt `attemptId`: save the audio
(tts.py line 280), then run the interactive review when enabled. -/
def afterSynthSuccess (env : Env) (idx attemptId : ℕ) (g : Bool) (n : ℕ)
    (inputs : List (List Char)) : SlideOut :=
  if env.interactive then
    let r := reviewLoop env idx attemptId inputs n
    { evs := .writeAudio idx attemptId :: .played idx :: r.evs
      artifact := .synth r.lastSaved
      onGpu := g, n := r.n, inputs := r.inputs, stop := r.stop }
  else
    { evs := [.writeAudio idx attemptId], artifact := .synth attemptId
      onGpu := g, n := n, inputs := inputs, stop := .kept }

/-- Embedding of the per-slide body of `generate_audio_for_slides`
(tts.py lines 229-315): silent WAV for notesless slides; otherwise one
synthesis attempt, with a one-time CPU downgrade and full-slide retry on
an accelerator OOM, and a silent substitution on any other failure. -/
def processSlide (env : Env) (g : Bool) (n : ℕ) (inputs : List (List Char))
    (s : Slide) : SlideOut :=
  match s.notes with
  | none =>
    { evs := [.writeSilent s.index env.holdDuration]
      artifact := .silent env.holdDuration
      onGpu := g, n := n, inputs := inputs, stop := .kept }
  | some _ =>
    match env.synth n with
    | .ok =>
      let r := afterSynthSuccess env s.index n g (n + 1) inputs
      { r with evs := .synthAttempt s.index n :: r.evs }
    | .err msg =>
      if g && is_oom msg then
        match env.synth (n + 1) with
        | .ok =>
          let r := afterSynthSuccess env s.index (n + 1) false (n + 2) inputs
          { r with
            evs := .synthAttempt s.index n :: .downgrade ::
              .synthAttempt s.index (n + 1) :: r.evs }
        | .err _ =>
          { evs := [.synthAttempt s.index n, .downgrade,
              .synthAttempt s.index (n + 1),
              .writeSilent s.index env.holdDuration]
            artifact := .silent env.holdDuration
            onGpu := false, n := n + 2, inputs := inputs, stop := .kept }
      else
        { evs := [.synthAttempt s.index n,
            .writeSilent s.index env.holdDuration]
          artifact := .silent env.holdDuration
          onGpu := g, n := n + 1, inputs := inputs, stop := .kept }

/-- How the whole run ended. -/
inductive RunOutcome where
  | completed
  | quitRun
  | eofAbort
  deriving DecidableEq, Repr

/-- `{index:03d}` decimal formatting, zero-padded to at least 3 digits. -/
def fmt3 (n : ℕ) : List Char :=
  List.replicate (3 - (Nat.toDigits 10 n).length) '0' ++ Nat.toDigits 10 n

/-- The stable per-slide audio artifact name `audio_{index:03d}.wav`
(tts.py line 230). -/
def audioName (i : ℕ) : List Char :=
  "audio_".toList ++ fmt3 i ++ ".wav".toList

/-- Result of a run of `generate_audio_for_slides`: the events, the
`audio_paths` entries (name and final on-disk artifact) in append order,
the final device flag, and how the run ended. -/
structure RunResult where
  evs : List Ev
  outs : List (List Char × Artifact)
  finalGpu : Bool
  outcome : RunOutcome
  deriving Repr

/-- The slide loop of `generate_audio_for_slides` (tts.py lines 229-317),
threading the device flag, the attempt counter and the input stream. -/
def runSlides (env : Env) : Bool → ℕ → List (List Char) → List Slide → RunResult
  | g, _, _, [] => ⟨[], [], g, .completed⟩
  | g, n, inputs, s :: rest =>
    let r := processSlide env g n inputs s
    match r.stop with
    | .kept =>
      let rr := runSlides env r.onGpu r.n r.inputs rest
      ⟨r.evs ++ rr.evs, (audioName s.index, r.artifact) :: rr.outs,
        rr.finalGpu, rr.outcome⟩
    | .quitRun => ⟨r.evs, [], r.onGpu, .quitRun⟩
    | .eofAbort => ⟨r.evs, [], r.onGpu, .eofAbort⟩

/-- Python truthiness of `s.notes` in `any(s.notes for s in slides)`:
`None` and the empty string are falsy. -/
def truthyNotes (s : Slide) : Bool :=
  match s.notes with
  | none => false
  | some t => ¬ t.isEmpty

/-- Embedding of `generate_audio_for_slides` (tts.py lines 181-317):
the model is lazily loaded only when some slide has truthy notes, the
initial device flag is accelerator iff the model was loaded on one, then
the slides are processed in order. -/
def generate_audio_for_slides (env : Env) (slides : List Slide) : RunResult :=
  runSlides env (slides.any truthyNotes && env.gpuAvailable) 0 env.inputs slides

/-- Number of `_move_model_to_cpu` calls recorded in an event list. -/
def downgrades : List Ev → ℕ
  | [] => 0
  | .downgrade :: es => downgrades es + 1
  | _ :: es => downgrades es

end Marp2Video

namespace Marp2Video

/-! ## Segment assembly order (assembler.py `assemble_video`) -/

/-- One encoded `.ts` segment as produced inside `assemble_video`:
its 1-based position, its file name, and whether it came from a
screencast (`_make_video_segment`) or a still (`_make_segment`). -/
structure SegmentJob where
  position : ℕ
  name : List Char
  isScreencast : Bool
  deriving DecidableEq, Repr

/-- The per-slide segment name `segment_{i:03d}.ts` (assembler.py
lines 34 and 83), keyed by the 1-based enumeration position. -/
def segName (i : ℕ) : List Char :=
  "segment_".toList ++ fmt3 i ++ ".ts".toList

/-- Embedding of the segment loop of `assemble_video` (assembler.py
lines 134-145): default `videos` to all-`None`, zip the three lists
(truncating to the shortest, as Python's `zip` does), and enumerate
from 1. -/
def assembleSegments (images : List ℕ) (audios : List (List Char))
    (videos : Option (List (Option ℕ))) : List SegmentJob :=
  let vids := match videos with
    | none => List.replicate images.length (none : Option ℕ)
    | some v => v
  (List.enumFrom 1 (images.zip (audios.zip vids))).map
    (fun p => { position := p.1, name := segName p.1
                isScreencast := p.2.2.2.isSome })

/-- The `concat.txt` manifest content: the segment names in the order
they were appended (assembler.py lines 148-151). -/
def concatManifest (segs : List SegmentJob) : List (List Char) :=
  segs.map (fun j => j.name)

/-- Embedding of the pipeline order in `__main__.py` (lines 116-140):
synthesize all audio, then assemble; `sys.exit(0)` (quit) and an
uncaught `EOFError` propagate past `except Exception`, so no segment is
ever encoded after an interrupted run. -/
def runPipeline (env : Env) (slides : List Slide) (images : List ℕ)
    (videos : Option (List (Option ℕ))) :
    RunResult × Option (List SegmentJob) :=
  let r := generate_audio_for_slides env slides
  match r.outcome with
  | .completed =>
      (r, some (assembleSegments images (r.outs.map (fun o => o.1)) videos))
  | .quitRun => (r, none)
  | .eofAbort => (r, none)

end Marp2Video

namespace Marp2Video

theorem downgrades_append (a b : List Ev) :
    downgrades (a ++ b) = downgrades a + downgrades b := by
  induction a with
  | nil => simp [downgrades]
  | cons e es ih =>
    cases e
    all_goals simp [downgrades, ih]
    all_goals omega

theorem reviewLoop_downgrade_free (env : Env) (idx : ℕ) :
    ∀ (inputs : List (List Char)) (savedId n : ℕ),
      downgrades (reviewLoop env idx savedId inputs n).evs = 0 := by
  intro inputs
  induction inputs with
  | nil => intro savedId n; simp [reviewLoop, downgrades]
  | cons inp rest ih =>
    intro savedId n
    rw [reviewLoop]
    split
    · simp [downgrades]
    · split
      · simp [downgrades, ih]
      · split
        · simp [downgrades]
        · cases h : env.synth n with
          | err msg => simp [downgrades]
          | ok => simp [downgrades, ih]

theorem afterSynthSuccess_device (env : Env) (idx a : ℕ) (g : Bool) (n : ℕ)
    (inputs : List (List Char)) :
    downgrades (afterSynthSuccess env idx a g n inputs).evs = 0 ∧
      (afterSynthSuccess env idx a g n inputs).onGpu = g := by
  rw [afterSynthSuccess]
  split
  · simp [downgrades, reviewLoop_downgrade_free]
  · simp [downgrades]

theorem processSlide_device (env : Env) (g : Bool) (n : ℕ)
    (inputs : List (List Char)) (s : Slide) :
    (downgrades (processSlide env g n inputs s).evs = 0 ∧
        (processSlide env g n inputs s).onGpu = g) ∨
      (downgrades (processSlide env g n inputs s).evs = 1 ∧
        (processSlide env g n inputs s).onGpu = false ∧ g = true) := by
  cases hs : s.notes with
  | none => left; simp [processSlide, hs, downgrades]
  | some t =>
    cases ha : env.synth n with
    | ok =>
      left
      have h := afterSynthSuccess_device env s.index n g (n + 1) inputs
      simp [processSlide, hs, ha, downgrades, h.1, h.2]
    | err msg =>
      by_cases hg : (g && is_oom msg) = true
      · have hgt : g = true := (Bool.and_eq_true_iff.mp hg).1
        have hoom : is_oom msg = true := (Bool.and_eq_true_iff.mp hg).2
        right
        cases hb : env.synth (n + 1) with
        | ok =>
          have h := afterSynthSuccess_device env s.index (n + 1) false (n + 2) inputs
          simp [processSlide, hs, ha, hb, hoom, downgrades, h.1, h.2, hgt]
        | err msg2 =>
          simp [processSlide, hs, ha, hb, hoom, downgrades, hgt]
      · left
        simp [processSlide, hs, ha, hg, downgrades]

theorem runSlides_device (env : Env) :
    ∀ (slides : List Slide) (g : Bool) (n : ℕ) (inputs : List (List Char)),
      (downgrades (runSlides env g n inputs slides).evs = 0 ∧
          (runSlides env g n inputs slides).finalGpu = g) ∨
        (downgrades (runSlides env g n inputs slides).evs = 1 ∧
          (runSlides env g n inputs slides).finalGpu = false ∧ g = true) := by
  intro slides
  induction slides with
  | nil => intro g n inputs; left; simp [runSlides, downgrades]
  | cons s rest ih =>
    intro g n inputs
    rw [runSlides]
    rcases processSlide_device env g n inputs s with ⟨h0, hgpu⟩ | ⟨h1, hoff, hgt⟩
    · rcases hstep : (processSlide env g n inputs s).stop with _ | _ | _
      · rcases ih (processSlide env g n inputs s).onGpu
            (processSlide env g n inputs s).n
            (processSlide env g n inputs s).inputs with ⟨r0, rg⟩ | ⟨r1, rf, rgt⟩
        · left
          refine ⟨by simp [downgrades_append, h0, r0], by rw [rg, hgpu]⟩
        · right
          refine ⟨by simp [downgrades_append, h0, r1], rf, ?_⟩
          rw [← hgpu, rgt]
      · left; exact ⟨h0, hgpu⟩
      · left; exact ⟨h0, hgpu⟩
    · rcases hstep : (processSlide env g n inputs s).stop with _ | _ | _
      · rcases ih (processSlide env g n inputs s).onGpu
            (processSlide env g n inputs s).n
            (processSlide env g n inputs s).inputs with ⟨r0, rg⟩ | ⟨r1, rf, rgt⟩
        · right
          refine ⟨by simp [downgrades_append, h1, r0], by rw [rg, hoff], hgt⟩
        · exact absurd (hoff ▸ rgt) (by simp)
      · right; exact ⟨h1, hoff, hgt⟩
      · right; exact ⟨h1, hoff, hgt⟩

end Marp2Video

namespace Marp2Video

/-- C4: device placement is monotonic within a run: the model is moved
from accelerator to CPU at most once (no matter how many slides hit
resource exhaustion), and once on CPU it never returns to an
accelerator — either no downgrade happened and the device flag is
unchanged, or exactly one happened, the run started on the accelerator,
and it ends on CPU. -/
theorem device_monotonic (env : Env) (slides : List Slide) :
    downgrades (generate_audio_for_slides env slides).evs ≤ 1 ∧
      ((downgrades (generate_audio_for_slides env slides).evs = 0 ∧
          (generate_audio_for_slides env slides).finalGpu
            = (slides.any truthyNotes && env.gpuAvailable)) ∨
        (downgrades (generate_audio_for_slides env slides).evs = 1 ∧
          (generate_audio_for_slides env slides).finalGpu = false ∧
          (slides.any truthyNotes && env.gpuAvailable) = true)) := by
  have h := runSlides_device env slides
    (slides.any truthyNotes && env.gpuAvailable) 0 env.inputs
  rw [generate_audio_for_slides]
  rcases h with ⟨h0, hg⟩ | ⟨h1, hf, hgt⟩
  · exact ⟨by omega, Or.inl ⟨h0, hg⟩⟩
  · exact ⟨by omega, Or.inr ⟨h1, hf, hgt⟩⟩

end Marp2Video

namespace Marp2Video

theorem processSlide_kept_of_noninteractive (env : Env) (g : Bool) (n : ℕ)
    (inputs : List (List Char)) (s : Slide) (hni : env.interactive = false) :
    (processSlide env g n inputs s).stop = ReviewEnd.kept := by
  cases hs : s.notes with
  | none => simp [processSlide, hs]
  | some t =>
    cases ha : env.synth n with
    | ok => simp [processSlide, hs, ha, afterSynthSuccess, hni]
    | err msg =>
      by_cases hg : (g && is_oom msg) = true
      · cases hb : env.synth (n + 1) with
        | ok => simp [processSlide, hs, ha, hb, hg, afterSynthSuccess, hni]
        | err msg2 => simp [processSlide, hs, ha, hb, hg]
      · simp [processSlide, hs, ha, hg]

theorem runSlides_completed_of_noninteractive (env : Env)
    (hni : env.interactive = false) :
    ∀ (slides : List Slide) (g : Bool) (n : ℕ) (inputs : List (List Char)),
      (runSlides env g n inputs slides).outcome = RunOutcome.completed := by
  intro slides
  induction slides with
  | nil => intro g n inputs; rfl
  | cons s rest ih =>
    intro g n inputs
    rw [runSlides]
    rcases hstep : (processSlide env g n inputs s).stop with _ | _ | _
    · exact ih _ _ _
    · exact absurd (hstep ▸ processSlide_kept_of_noninteractive env g n inputs s hni) (by simp)
    · exact absurd (hstep ▸ processSlide_kept_of_noninteractive env g n inputs s hni) (by simp)

theorem runSlides_out_names (env : Env) :
    ∀ (slides : List Slide) (g : Bool) (n : ℕ) (inputs : List (List Char)),
      (runSlides env g n inputs slides).outcome = RunOutcome.completed →
        (runSlides env g n inputs slides).outs.map (fun o => o.1)
          = slides.map (fun s => audioName s.index) := by
  intro slides
  induction slides with
  | nil => intro g n inputs _; rfl
  | cons s rest ih =>
    intro g n inputs hc
    rw [runSlides] at hc ⊢
    rcases hstep : (processSlide env g n inputs s).stop with _ | _ | _
    · rw [hstep] at hc
      simp only [hstep, List.map_cons, List.map]
      rw [ih _ _ _ hc]
    · rw [hstep] at hc; exact absurd hc (by simp)
    · rw [hstep] at hc; exact absurd hc (by simp)

end Marp2Video

namespace Marp2Video

/-- C3: for a slide with notes whose synthesis attempt fails — if the
model is on an accelerator and the error is resource exhaustion, the
orchestrator downgrades to CPU and retries the whole slide exactly once
(on a failed retry it writes silence of the hold duration and moves on);
on a non-OOM failure (or when already on CPU) it writes silence
directly; and in non-interactive mode no synthesis failure ever keeps a
run from completing. -/
theorem synthesis_failure_recovery (env : Env) (g : Bool) (n : ℕ)
    (inputs : List (List Char)) (s : Slide) (t msg : List Char)
    (hnotes : s.notes = some t) (hfail : env.synth n = Attempt.err msg) :
    (¬ (g = true ∧ is_oom msg = true) →
      processSlide env g n inputs s =
        { evs := [Ev.synthAttempt s.index n,
            Ev.writeSilent s.index env.holdDuration]
          artifact := Artifact.silent env.holdDuration
          onGpu := g, n := n + 1, inputs := inputs
          stop := ReviewEnd.kept }) ∧
    (g = true → is_oom msg = true →
      ∀ msg₂, env.synth (n + 1) = Attempt.err msg₂ →
        processSlide env g n inputs s =
          { evs := [Ev.synthAttempt s.index n, Ev.downgrade,
              Ev.synthAttempt s.index (n + 1),
              Ev.writeSilent s.index env.holdDuration]
            artifact := Artifact.silent env.holdDuration
            onGpu := false, n := n + 2, inputs := inputs
            stop := ReviewEnd.kept }) ∧
    (g = true → is_oom msg = true → env.synth (n + 1) = Attempt.ok →
      env.interactive = false →
        processSlide env g n inputs s =
          { evs := [Ev.synthAttempt s.index n, Ev.downgrade,
              Ev.synthAttempt s.index (n + 1),
              Ev.writeAudio s.index (n + 1)]
            artifact := Artifact.synth (n + 1)
            onGpu := false, n := n + 2, inputs := inputs
            stop := ReviewEnd.kept }) ∧
    (env.interactive = false →
      ∀ slides, (generate_audio_for_slides env slides).outcome
        = RunOutcome.completed) := by
  refine ⟨?_, ?_, ?_, ?_⟩
  · intro hn
    have hg : ¬ ((g && is_oom msg) = true) := by
      rw [Bool.and_eq_true_iff]
      exact fun hc => hn ⟨hc.1, hc.2⟩
    simp [processSlide, hnotes, hfail, hg]
  · intro hgt hoom msg₂ hb
    simp [processSlide, hnotes, hfail, hgt, hoom, hb]
  · intro hgt hoom hb hni
    simp [processSlide, hnotes, hfail, hgt, hoom, hb, afterSynthSuccess, hni]
  · intro hni slides
    rw [generate_audio_for_slides]
    exact runSlides_completed_of_noninteractive env hni slides _ _ _

/-- An environment whose every synthesis attempt raises an accelerator
out-of-memory error, non-interactive, with a 3-second hold duration. -/
def oomEnv : Env :=
  { synth := fun _ => Attempt.err "CUDA out of memory".toList
    inputs := [], interactive := false, holdDuration := 3
    gpuAvailable := true }

/-- C3 witness: the recovery law applied on the accelerator with an OOM
first attempt and a failing retry. -/
theorem synthesis_failure_recovery_witness :
    processSlide oomEnv true 0 [] ⟨1, some "Hello.".toList⟩ =
      { evs := [Ev.synthAttempt 1 0, Ev.downgrade, Ev.synthAttempt 1 1,
          Ev.writeSilent 1 3]
        artifact := Artifact.silent 3
        onGpu := false, n := 2, inputs := []
        stop := ReviewEnd.kept } :=
  (synthesis_failure_recovery oomEnv true 0 [] ⟨1, some "Hello.".toList⟩
      "Hello.".toList "CUDA out of memory".toList rfl rfl).2.1
    rfl (by decide) "CUDA out of memory".toList rfl

end Marp2Video

namespace Marp2Video

/-- C5: a completed run returns exactly one audio path per slide, in
input order, named `audio_{index:03d}.wav`; and the assembler produces
exactly one segment per slide and a concatenation manifest listing
`segment_001.ts, segment_002.ts, ...` in slide-index order. -/
theorem artifact_and_segment_correspondence (env : Env) (slides : List Slide)
    (images : List ℕ) (audios : List (List Char)) (vids : List (Option ℕ))
    (hc : (generate_audio_for_slides env slides).outcome = RunOutcome.completed)
    (ha : audios.length = images.length) (hv : vids.length = images.length) :
    (generate_audio_for_slides env slides).outs.map (fun o => o.1)
        = slides.map (fun s => audioName s.index) ∧
      (generate_audio_for_slides env slides).outs.length = slides.length ∧
      (assembleSegments images audios (some vids)).length = images.length ∧
      concatManifest (assembleSegments images audios (some vids))
        = (List.range' 1 images.length).map segName := by
  rw [generate_audio_for_slides] at hc ⊢
  have hnames := runSlides_out_names env slides _ 0 env.inputs hc
  have hzip : (images.zip (audios.zip vids)).length = images.length := by
    rw [List.length_zip, List.length_zip, ha, hv]
    simp
  refine ⟨hnames, ?_, ?_, ?_⟩
  · have := congrArg List.length hnames
    simpa using this
  · simp [assembleSegments, List.enumFrom_length, hzip]
  · rw [concatManifest, assembleSegments]
    have : ((List.enumFrom 1 (images.zip (audios.zip vids))).map
        (fun p => ({ position := p.1, name := segName p.1
                     isScreencast := p.2.2.2.isSome } : SegmentJob))).map
          (fun j => j.name)
        = (List.enumFrom 1 (images.zip (audios.zip vids))).map
            (fun p => segName p.1) := by
      rw [List.map_map]
      rfl
    rw [this]
    have h2 : (List.enumFrom 1 (images.zip (audios.zip vids))).map
        (fun p => segName p.1)
        = ((List.enumFrom 1 (images.zip (audios.zip vids))).map Prod.fst).map
            segName := by
      rw [List.map_map]
      rfl
    rw [h2, List.enumFrom_map_fst, hzip]

/-- A trivial environment and deck for the completed-run witness: one
notesless slide, one image, matching audio and video lists. -/
def silentEnv : Env :=
  { synth := fun _ => Attempt.ok
    inputs := [], interactive := false, holdDuration := 2
    gpuAvailable := false }

/-- C5 witness: the correspondence applied to a completed one-slide run. -/
theorem artifact_and_segment_correspondence_witness :
    (generate_audio_for_slides silentEnv [⟨1, none⟩]).outs.map (fun o => o.1)
        = [audioName 1] ∧
      (generate_audio_for_slides silentEnv [⟨1, none⟩]).outs.length = 1 ∧
      (assembleSegments [7] [audioName 1] (some [none])).length = 1 ∧
      concatManifest (assembleSegments [7] [audioName 1] (some [none]))
        = (List.range' 1 1).map segName := by
  have h := artifact_and_segment_correspondence silentEnv [⟨1, none⟩]
    [7] [audioName 1] [none] rfl rfl rfl
  simpa using h

end Marp2Video

namespace Marp2Video

/-- C9: the interactive review protocol — after a successful synthesis
the audio is saved and played and the loop blocks on operator input;
empty input or `y` keeps the audio and ends the review; `r` only
replays and re-prompts without resynthesis; any other non-quit input
regenerates from scratch, saves, plays, and re-prompts; `q` ends the
review with a run-terminating quit, after which no later slide is
processed and nothing is encoded; slides without notes never enter the
review loop. -/
theorem interactive_review_protocol (env : Env) (idx savedId n : ℕ)
    (inp : List Char) (rest : List (List Char)) (g : Bool)
    (inputs : List (List Char)) (s : Slide) (t : List Char)
    (slides : List Slide) (images : List ℕ)
    (vids : Option (List (Option ℕ))) :
    ((normalizeChoice inp = [] ∨ normalizeChoice inp = ['y']) →
      reviewLoop env idx savedId (inp :: rest) n
        = ⟨[], savedId, n, rest, ReviewEnd.kept⟩) ∧
    (normalizeChoice inp = ['r'] →
      reviewLoop env idx savedId (inp :: rest) n =
        { evs := Ev.played idx :: (reviewLoop env idx savedId rest n).evs
          lastSaved := (reviewLoop env idx savedId rest n).lastSaved
          n := (reviewLoop env idx savedId rest n).n
          inputs := (reviewLoop env idx savedId rest n).inputs
          stop := (reviewLoop env idx savedId rest n).stop }) ∧
    (normalizeChoice inp ≠ [] → normalizeChoice inp ≠ ['y'] →
      normalizeChoice inp ≠ ['r'] → normalizeChoice inp ≠ ['q'] →
      env.synth n = Attempt.ok →
      reviewLoop env idx savedId (inp :: rest) n =
        { evs := Ev.synthAttempt idx n :: Ev.writeAudio idx n ::
            Ev.played idx :: (reviewLoop env idx n rest (n + 1)).evs
          lastSaved := (reviewLoop env idx n rest (n + 1)).lastSaved
          n := (reviewLoop env idx n rest (n + 1)).n
          inputs := (reviewLoop env idx n rest (n + 1)).inputs
          stop := (reviewLoop env idx n rest (n + 1)).stop }) ∧
    (normalizeChoice inp = ['q'] →
      reviewLoop env idx savedId (inp :: rest) n
        = ⟨[], savedId, n, rest, ReviewEnd.quitRun⟩) ∧
    ((processSlide env g n inputs s).stop = ReviewEnd.quitRun →
      ∀ rest2 : List Slide,
        runSlides env g n inputs (s :: rest2) =
          ⟨(processSlide env g n inputs s).evs, [],
            (processSlide env g n inputs s).onGpu, RunOutcome.quitRun⟩) ∧
    ((generate_audio_for_slides env slides).outcome = RunOutcome.quitRun →
      (runPipeline env slides images vids).2 = none) ∧
    (env.interactive = true → s.notes = some t → env.synth n = Attempt.ok →
      processSlide env g n inputs s =
        { evs := Ev.synthAttempt s.index n :: Ev.writeAudio s.index n ::
            Ev.played s.index :: (reviewLoop env s.index n inputs (n + 1)).evs
          artifact := Artifact.synth
            (reviewLoop env s.index n inputs (n + 1)).lastSaved
          onGpu := g
          n := (reviewLoop env s.index n inputs (n + 1)).n
          inputs := (reviewLoop env s.index n inputs (n + 1)).inputs
          stop := (reviewLoop env s.index n inputs (n + 1)).stop }) ∧
    (s.notes = none →
      processSlide env g n inputs s =
        { evs := [Ev.writeSilent s.index env.holdDuration]
          artifact := Artifact.silent env.holdDuration
          onGpu := g, n := n, inputs := inputs
          stop := ReviewEnd.kept }) := by
  refine ⟨?_, ?_, ?_, ?_, ?_, ?_, ?_, ?_⟩
  · intro h
    rcases h with h | h <;> simp [reviewLoop, h]
  · intro h
    simp [reviewLoop, h]
  · intro h1 h2 h3 h4 hok
    simp [reviewLoop, h1, h2, h3, h4, hok]
  · intro h
    simp [reviewLoop, h]
  · intro h rest2
    simp only [runSlides, h]
  · intro h
    simp [runPipeline, h]
  · intro hint hnotes hok
    simp [processSlide, hnotes, hok, afterSynthSuccess, hint]
  · intro hnone
    simp [processSlide, hnone]

/-- An interactive environment whose synthesis always succeeds, for the
review-protocol witness. -/
def quitEnv : Env :=
  { synth := fun _ => Attempt.ok
    inputs := ["q".toList], interactive := true, holdDuration := 2
    gpuAvailable := false }

/-- C9 witness: the protocol applied to a concrete `q` and a concrete
`y` operator response. -/
theorem interactive_review_protocol_witness :
    reviewLoop quitEnv 1 0 ["q".toList] 5
        = ⟨[], 0, 5, [], ReviewEnd.quitRun⟩ ∧
      reviewLoop quitEnv 1 0 ["y".toList] 5
        = ⟨[], 0, 5, [], ReviewEnd.kept⟩ :=
  ⟨(interactive_review_protocol quitEnv 1 0 5 "q".toList [] false []
      ⟨1, none⟩ [] [] [] none).2.2.2.1 (by decide),
    (interactive_review_protocol quitEnv 1 0 5 "y".toList [] false []
      ⟨1, none⟩ [] [] [] none).1 (Or.inr (by decide))⟩

end Marp2Video

namespace Marp2Video

/-- C10: if a regeneration requested during interactive review fails,
the loop records only the failed attempt, keeps the previously saved
audio, and exits the review keeping it: no silent substitution, no
downgrade event, no run abort; at the slide level the artifact stays
the one saved before the regeneration. -/
theorem regen_failure_keeps_audio (env : Env) (idx savedId n : ℕ)
    (inp : List Char) (rest : List (List Char)) (g : Bool)
    (s : Slide) (t msg : List Char)
    (h1 : normalizeChoice inp ≠ []) (h2 : normalizeChoice inp ≠ ['y'])
    (h3 : normalizeChoice inp ≠ ['r']) (h4 : normalizeChoice inp ≠ ['q'])
    (hfail : env.synth n = Attempt.err msg) :
    reviewLoop env idx savedId (inp :: rest) n
        = ⟨[Ev.synthAttempt idx n], savedId, n + 1, rest, ReviewEnd.kept⟩ ∧
      (∀ m, env.synth m = Attempt.ok → env.synth (m + 1) = Attempt.err msg →
        s.notes = some t → env.interactive = true →
        processSlide env g m (inp :: rest) s =
          { evs := [Ev.synthAttempt s.index m, Ev.writeAudio s.index m,
              Ev.played s.index, Ev.synthAttempt s.index (m + 1)]
            artifact := Artifact.synth m
            onGpu := g, n := m + 2, inputs := rest
            stop := ReviewEnd.kept }) := by
  constructor
  · simp [reviewLoop, h1, h2, h3, h4, hfail]
  · intro m hok hregen hnotes hint
    simp [processSlide, hnotes, hok, afterSynthSuccess, hint,
      reviewLoop, h1, h2, h3, h4, hregen]

/-- An interactive environment whose first attempt succeeds and whose
regeneration fails, with the operator asking for one regeneration. -/
def regenEnv : Env :=
  { synth := fun m => if m = 0 then Attempt.ok else Attempt.err "boom".toList
    inputs := ["n".toList], interactive := true, holdDuration := 2
    gpuAvailable := false }

/-- C10 witness: a failed regeneration at slide 1 keeps the audio saved
by attempt 0. -/
theorem regen_failure_keeps_audio_witness :
    processSlide regenEnv false 0 ["n".toList] ⟨1, some "Hi.".toList⟩ =
      { evs := [Ev.synthAttempt 1 0, Ev.writeAudio 1 0,
          Ev.played 1, Ev.synthAttempt 1 1]
        artifact := Artifact.synth 0
        onGpu := false, n := 2, inputs := []
        stop := ReviewEnd.kept } :=
  (regen_failure_keeps_audio regenEnv 1 0 1 "n".toList [] false
      ⟨1, some "Hi.".toList⟩ "Hi.".toList "boom".toList
      (by decide) (by decide) (by decide) (by decide) rfl).2
    0 rfl rfl rfl rfl

end Marp2Video
